import Mathlib

/-!
# Verification of the ts-morph handle/cache/invalidation engine

The repository ships only its public declaration file
(`src/lib/ts-morph.d.ts`); the implementation behind those declarations is
not part of the sources.  Where a definition embeds behaviour that the
declaration file cannot show, its doc comment starts with
`Modelled from the spec:` and names the missing code; definitions that
transcribe declared API shape (enum members, interface fields, paired
accessor signatures) cite the declaration file lines they come from.
-/

set_option autoImplicit false

namespace TsMorph

/-! ## Data model -/

/-- A concrete syntax node as the compiler front-end produces it: a kind
tag and half-open byte range `[start, stop)` into the text of one parse
(spec §3, `ConcreteNode`).  Parent/child links are not needed by the
properties below, so the embedding keeps the addressable part only. -/
structure ConcreteNode where
  kind : Nat
  start : Nat
  stop : Nat
  deriving DecidableEq, Repr

/-- Error taxonomy of spec §7; `forgottenHandle` also backs
`Node.wasForgotten` (ts-morph.d.ts:4254-4269) and `invalidOperation`
backs `Directory.createSourceFile` (ts-morph.d.ts:120-129). -/
inductive WrapperError where
  | forgottenHandle
  | notFound
  | invalidOperation
  | structureMismatch
  | rangeError
  | unsupportedKind
  deriving DecidableEq, Repr

/-! ## Wrapper liveness state machine (claim C1) -/

/-- Liveness of a WrapperNode (spec §3 / §4.5 state machine). -/
inductive WrapperState where
  | live
  | forgotten
  deriving DecidableEq, Repr

/-- The events that can hit a wrapper's liveness flag (spec §4.5:
remap match, removal, overlapping edit, failed structural match,
explicit `Node.forget`, ts-morph.d.ts:4254-4259). -/
inductive WrapperEvent where
  | remapMatch
  | remapFailed
  | overlapEdit
  | removedSubtree
  | explicitForget
  deriving DecidableEq, Repr

/-- Modelled from the spec: the implementation of the per-wrapper
state machine of §4.5 is absent from `src/`; only `Node.forget` /
`Node.wasForgotten` declarations exist (ts-morph.d.ts:4254-4269).
`Live → Live` on a successful remap match, `Live → Forgotten` on
everything else, `Forgotten` terminal. -/
def stepWrapper : WrapperState → WrapperEvent → WrapperState
  | .live, .remapMatch => .live
  | .live, _ => .forgotten
  | .forgotten, _ => .forgotten

/-- A wrapper handle: identity, current underlying node, liveness flag
(spec §3, `WrapperNode`). -/
structure WrapperNode where
  id : Nat
  node : ConcreteNode
  live : Bool
  deriving DecidableEq, Repr

/-- Modelled from the spec: the runtime guard that every operation of
every capability trait passes through is absent from `src/`; the
declarations only document it ("Gets if the compiler node was
forgotten", ts-morph.d.ts:4264-4269; §7 ForgottenHandleError).  An
operation body `f` runs only when the handle is live; a forgotten
handle fails fast with `forgottenHandle`. -/
def invokeOp {α : Type} (f : WrapperNode → α) (w : WrapperNode) :
    Except WrapperError α :=
  if w.live then .ok (f w) else .error .forgottenHandle

/-! ## Wrapper cache (claim C2) -/

/-- Modelled from the spec: the per-document Wrapper Cache of §4.2 is
absent from `src/` (only `createWrappedNode`, ts-morph.d.ts:644-649,
is declared).  An association list from concrete node to wrapper id,
plus the next fresh id. -/
structure Cache where
  entries : List (ConcreteNode × Nat)
  nextId : Nat
  deriving DecidableEq, Repr

/-- Look up the live wrapper id registered for a concrete node. -/
def Cache.lookup (c : Cache) (n : ConcreteNode) : Option Nat :=
  (c.entries.find? (fun p => p.1 = n)).map (·.2)

/-- Modelled from the spec: `getOrCreate` of §4.2 — return the existing
live wrapper for the node if present, otherwise register a fresh one. -/
def Cache.getOrCreate (c : Cache) (n : ConcreteNode) : Cache × Nat :=
  match c.lookup n with
  | some wid => (c, wid)
  | none => (⟨(n, c.nextId) :: c.entries, c.nextId + 1⟩, c.nextId)

/-- Modelled from the spec: `forget` of §4.2 removes the wrapper from
the cache (the liveness flag of the handle itself is covered by
`stepWrapper`). -/
def Cache.forget (c : Cache) (wid : Nat) : Cache :=
  ⟨c.entries.filter (fun p => p.2 ≠ wid), c.nextId⟩

/-! ## Text edits and the remap pass (claims C3, C8, C10) -/

/-- Document text, embedded as a character list so splicing has a
simple, fully computable semantics. -/
abbrev Text := List Char

/-- A TextEdit: replace the half-open range `[s, e)` with `repl`
(spec §3, `TextEdit`). -/
structure TextEdit where
  s : Nat
  e : Nat
  repl : Text
  deriving DecidableEq, Repr

/-- Length delta of an edit: inserted length minus removed length. -/
def TextEdit.delta (ed : TextEdit) : Int :=
  (ed.repl.length : Int) - ((ed.e : Int) - (ed.s : Int))

/-- Splice an edit into document text (spec §4.3 step 1). -/
def spliceText (text : Text) (ed : TextEdit) : Text :=
  text.take ed.s ++ ed.repl ++ text.drop ed.e

/-- Modelled from the spec: the remap decision of §4.3 for one node is
absent from `src/` (only the warnings on `TextInsertableNode.insertText`
/ `replaceText` / `removeText`, ts-morph.d.ts:3049-3077, describe it).
A node wholly at or before the edit start keeps its offsets; a node
wholly at or after the edit end shifts by the length delta; a node whose
interior the edit touches has no counterpart in the new tree and is
forgotten (`none`). -/
def remapNode (ed : TextEdit) (n : ConcreteNode) : Option ConcreteNode :=
  if n.stop ≤ ed.s then
    some n
  else if ed.e ≤ n.start then
    some { n with
      start := n.start - (ed.e - ed.s) + ed.repl.length,
      stop := n.stop - (ed.e - ed.s) + ed.repl.length }
  else
    none

/-- Modelled from the spec: the remap pass of §4.3 over the whole cache —
every entry whose node survives is repointed, every other entry is
dropped (implicitly forgotten). -/
def remapCache (ed : TextEdit) (c : Cache) : Cache :=
  ⟨c.entries.filterMap (fun p => (remapNode ed p.1).map (fun n' => (n', p.2))),
   c.nextId⟩

/-- The remap decision for a wrapper: does it survive this edit? -/
def survivesEdit (ed : TextEdit) (n : ConcreteNode) : Bool :=
  (remapNode ed n).isSome

/-- A node is disjoint from the edited range `[s, e)`. -/
def disjointFrom (n : ConcreteNode) (ed : TextEdit) : Bool :=
  n.stop ≤ ed.s || ed.e ≤ n.start

/-- Node well-formedness: a nonempty half-open byte range. -/
abbrev ConcreteNode.WF (n : ConcreteNode) : Prop :=
  n.start < n.stop

/-- Cache well-formedness: at most one live wrapper per concrete node
(spec §3 invariant) over well-formed nodes. -/
abbrev Cache.WF (c : Cache) : Prop :=
  (c.entries.map Prod.fst).Nodup ∧ ∀ p ∈ c.entries, p.1.WF

/-- The wrapper ids the cache currently keeps live (the remap
"decisions": which wrappers were repointed rather than forgotten). -/
def Cache.wrapperIds (c : Cache) : List Nat :=
  c.entries.map Prod.snd

/-! ## Manipulation settings (claim C8) -/

/-- Kinds of indentation, transcribed from `IndentationText`
(ts-morph.d.ts:10477-10494). -/
inductive IndentationText where
  | twoSpaces
  | fourSpaces
  | eightSpaces
  | tab
  deriving DecidableEq, Repr

/-- The string value of each `IndentationText` member
(ts-morph.d.ts:10481,10485,10489,10493). -/
def IndentationText.text : IndentationText → Text
  | .twoSpaces => "  ".toList
  | .fourSpaces => "    ".toList
  | .eightSpaces => "        ".toList
  | .tab => "\t".toList

/-- The TypeScript `NewLineKind` consumed at ts-morph.d.ts:10507,
rendered per `getNewLineKindAsString` (ts-morph.d.ts:10571). -/
inductive NewLineKind where
  | lineFeed
  | carriageReturnLineFeed
  deriving DecidableEq, Repr

/-- Newline text per kind (ts-morph.d.ts:10571). -/
def NewLineKind.text : NewLineKind → Text
  | .lineFeed => "\n".toList
  | .carriageReturnLineFeed => "\r\n".toList

/-- Quote type for a string literal, transcribed from `QuoteKind`
(ts-morph.d.ts:6905-6914). -/
inductive QuoteKind where
  | single
  | double
  deriving DecidableEq, Repr

/-- The quote character of each `QuoteKind` member
(ts-morph.d.ts:6909,6913). -/
def QuoteKind.text : QuoteKind → Text
  | .single => "'".toList
  | .double => "\"".toList

/-- The `ManipulationSettings` interface, transcribed from
ts-morph.d.ts:10499-10519 together with the field it inherits from
`SupportedFormatCodeSettingsOnly` (ts-morph.d.ts:10530-10538). -/
structure ManipulationSettings where
  indentationText : IndentationText
  newLineKind : NewLineKind
  quoteKind : QuoteKind
  usePrefixAndSuffixTextForRename : Bool
  insertSpaceAfterOpeningAndBeforeClosingNonemptyBraces : Bool
  deriving DecidableEq, Repr

/-- The names of the options the `ManipulationSettings` interface
recognizes, transcribed from ts-morph.d.ts:10499-10519 plus the
inherited ts-morph.d.ts:10537. -/
def manipulationSettingsOptions : List String :=
  ["indentationText", "newLineKind", "quoteKind",
   "usePrefixAndSuffixTextForRename",
   "insertSpaceAfterOpeningAndBeforeClosingNonemptyBraces"]

/-! ## Structures: synthesis and application (claims C4, C5, C7) -/

/-- Kind discriminant shared by all structure records (spec §6). -/
inductive StructureKind where
  | classDecl
  | interfaceDecl
  | enumDecl
  deriving DecidableEq, Repr

/-- Modelled from the spec: the declarative shape a wrapper node of a
supported kind exposes through its capability traits (name, export
modifier, member list; spec §3 `Structure`, §6 record shape).  The
implementation behind `getStructure`/`set`
(ts-morph.d.ts:3983-3991) is absent from `src/`. -/
inductive NodeShape where
  | classShape (name : Text) (isExported : Bool) (memberNames : List Text)
  | interfaceShape (name : Text) (isExported : Bool) (memberNames : List Text)
  | enumShape (name : Text) (isExported : Bool) (memberNames : List Text)
  deriving DecidableEq, Repr

/-- The kind tag of a shape. -/
def NodeShape.kindOf : NodeShape → StructureKind
  | .classShape _ _ _ => .classDecl
  | .interfaceShape _ _ _ => .interfaceDecl
  | .enumShape _ _ _ => .enumDecl

/-- A full structure record: plain, kind-tagged, no identity
(spec §3, §6). -/
structure Structure where
  kind : StructureKind
  name : Text
  isExported : Bool
  memberNames : List Text
  deriving DecidableEq, Repr

/-- A partial structure: the optional-field form `set` accepts
(`Partial<ClassDeclarationStructure>`, ts-morph.d.ts:3987). -/
structure StructureUpdate where
  kind : StructureKind
  name : Option Text
  isExported : Option Bool
  memberNames : Option (List Text)
  deriving DecidableEq, Repr

/-- View a full structure as an update setting every field. -/
def Structure.toUpdate (st : Structure) : StructureUpdate :=
  ⟨st.kind, some st.name, some st.isExported, some st.memberNames⟩

/-- Modelled from the spec: `toStructure` of §4.4 — read the wrapper's
traits into a plain record tagged with the node's kind (the
implementation behind `getStructure`, ts-morph.d.ts:3988-3991, is
absent from `src/`). -/
def toStructure : NodeShape → Structure
  | .classShape n e ms => ⟨.classDecl, n, e, ms⟩
  | .interfaceShape n e ms => ⟨.interfaceDecl, n, e, ms⟩
  | .enumShape n e ms => ⟨.enumDecl, n, e, ms⟩

/-- The empty/default node shape of a kind (the target of a structure
round-trip, spec §8). -/
def defaultShape : StructureKind → NodeShape
  | .classDecl => .classShape [] false []
  | .interfaceDecl => .interfaceShape [] false []
  | .enumDecl => .enumShape [] false []

/-- Modelled from the spec: §4.5 — merge a partial structure onto the
wrapper's current shape, field by field (the implementation behind
`set`, ts-morph.d.ts:3983-3987, is absent from `src/`). -/
def mergeStructure (sh : NodeShape) (p : StructureUpdate) : NodeShape :=
  match sh with
  | .classShape n e ms =>
      .classShape (p.name.getD n) (p.isExported.getD e) (p.memberNames.getD ms)
  | .interfaceShape n e ms =>
      .interfaceShape (p.name.getD n) (p.isExported.getD e) (p.memberNames.getD ms)
  | .enumShape n e ms =>
      .enumShape (p.name.getD n) (p.isExported.getD e) (p.memberNames.getD ms)

/-- `set` applied to an empty/default node of the structure's kind. -/
def applyToDefault (st : Structure) : NodeShape :=
  mergeStructure (defaultShape st.kind) st.toUpdate

/-- Declaration keyword per kind. -/
def keywordOf : StructureKind → Text
  | .classDecl => "class".toList
  | .interfaceDecl => "interface".toList
  | .enumDecl => "enum".toList

/-- Member terminator per kind (a comma inside an enum body, a
semicolon elsewhere). -/
def memberEnd : StructureKind → Text
  | .enumDecl => ",".toList
  | _ => ";".toList

/-- Modelled from the spec: §4.5 — render a merged shape to a
source-text fragment, consulting the Manipulation Settings for
indentation and line-ending choices. -/
def renderShape (settings : ManipulationSettings) (sh : NodeShape) : Text :=
  let st := toStructure sh
  let nl := settings.newLineKind.text
  (if st.isExported then "export ".toList else [])
    ++ keywordOf st.kind ++ " ".toList ++ st.name ++ " \x7b".toList
    ++ (st.memberNames.map
          (fun m => nl ++ settings.indentationText.text ++ m ++ memberEnd st.kind)).flatten
    ++ nl ++ "\x7d".toList

/-- Modelled from the spec: §4.5 — `set` on a wrapper occupying range
`[s, e)`: reject a structure whose kind discriminant does not match the
node's kind before any text is generated, otherwise issue the TextEdit
replacing the wrapper's range with the rendered merged shape. -/
def setStructureEdit (settings : ManipulationSettings) (s e : Nat)
    (sh : NodeShape) (p : StructureUpdate) : Except WrapperError TextEdit :=
  if p.kind = sh.kindOf then
    .ok ⟨s, e, renderShape settings (mergeStructure sh p)⟩
  else
    .error .structureMismatch

/-! ## The edit pipeline: validate before commit (claims C5, C8) -/

/-- Modelled from the spec: the Kind Dispatch Table of §4.1, total over
the kind-tag space — every kind gets trait 0 (generic tree navigation),
statically known kinds get richer trait sets. -/
def dispatchTraits (kind : Nat) : List Nat :=
  if kind = 0 then [0, 1, 2]
  else if kind = 1 then [0, 1]
  else [0]

/-- Does the dispatch table give `kind` the capability trait `trait`? -/
def kindSupports (kind trait : Nat) : Bool :=
  decide (trait ∈ dispatchTraits kind)

/-- Per-document state the engine mutates: current full text and the
wrapper cache of the current tree generation (spec §3,
`DocumentHandle`). -/
structure DocState where
  text : Text
  cache : Cache
  deriving DecidableEq, Repr

/-- The edit requests the Text Manipulation Engine accepts (spec §2):
replace a range, apply a structure, or invoke a capability-trait
operation on a node of a given kind. -/
inductive EditRequest where
  | replaceRange (ed : TextEdit)
  | applyStructure (s e : Nat) (sh : NodeShape) (p : StructureUpdate)
  | traitOp (kind trait : Nat)
  deriving DecidableEq, Repr

/-- Modelled from the spec: §7 propagation policy — the validation that
runs before any text mutation.  Out-of-bounds or inverted ranges give
`rangeError`, a structure kind incompatible with the target node gives
`structureMismatch`, an operation whose trait the node's kind lacks
gives `unsupportedKind`. -/
def validateRequest (st : DocState) (r : EditRequest) : Option WrapperError :=
  match r with
  | .replaceRange ed =>
      if ed.s ≤ ed.e ∧ ed.e ≤ st.text.length then none else some .rangeError
  | .applyStructure s e sh p =>
      if p.kind = sh.kindOf then
        if s ≤ e ∧ e ≤ st.text.length then none else some .rangeError
      else some .structureMismatch
  | .traitOp kind trait =>
      if kindSupports kind trait then none else some .unsupportedKind

/-- Modelled from the spec: §4.3/§4.5 — commit a validated request:
splice the (possibly rendered) TextEdit into the text and run the remap
pass over the cache; a pure trait operation leaves the document as is. -/
def commitRequest (settings : ManipulationSettings) (st : DocState) :
    EditRequest → DocState
  | .replaceRange ed => ⟨spliceText st.text ed, remapCache ed st.cache⟩
  | .applyStructure s e sh p =>
      let ed : TextEdit := ⟨s, e, renderShape settings (mergeStructure sh p)⟩
      ⟨spliceText st.text ed, remapCache ed st.cache⟩
  | .traitOp _ _ => st

/-- Modelled from the spec: the engine's entry point — validate first;
only a request that validates cleanly commits any mutation. -/
def applyRequest (settings : ManipulationSettings) (st : DocState)
    (r : EditRequest) : DocState × Option WrapperError :=
  match validateRequest st r with
  | some err => (st, some err)
  | none => (commitRequest settings st r, none)

/-! ## Paired lookup accessors (claim C6) -/

/-- A declaration as seen by the `StatementedNode` lookups
(ts-morph.d.ts:8285-8309). -/
structure Decl where
  kind : StructureKind
  name : Text
  deriving DecidableEq, Repr

/-- Modelled from the spec: §9 — the single internal result-returning
accessor behind every lookup pair; here the nullable `getClass`
(ts-morph.d.ts:8294). -/
def getClass (decls : List Decl) (name : Text) : Option Decl :=
  (decls.filter (fun d => d.kind = .classDecl)).find? (fun d => d.name = name)

/-- Modelled from the spec: §9 — the unwrap-or-throw presentation
wrapper every `...OrThrow` accessor is built from (§7 NotFoundError). -/
def orThrow {α : Type} (r : Option α) : Except WrapperError α :=
  match r with
  | some v => .ok v
  | none => .error .notFound

/-- `getClassOrThrow` (ts-morph.d.ts:8304): the throwing sibling of
`getClass`, as the thin wrapper over the same query. -/
def getClassOrThrow (decls : List Decl) (name : Text) :
    Except WrapperError Decl :=
  orThrow (getClass decls name)

/-! ## Project source-file creation (claim C9) -/

/-- Options for creating a source file, transcribed from
`SourceFileCreateOptions` (ts-morph.d.ts:630-640); `overwrite` is
optional and defaults to false. -/
structure SourceFileCreateOptions where
  overwrite : Option Bool
  deriving DecidableEq, Repr

/-- The project's set of source files, path to text. -/
structure Project where
  files : List (String × Text)
  deriving DecidableEq, Repr

/-- Does a source file already exist at the path? -/
def Project.fileExists (p : Project) (path : String) : Bool :=
  p.files.any (fun f => f.1 = path)

/-- Modelled from the spec: the implementation behind
`Directory.createSourceFile` (ts-morph.d.ts:120-129) is absent from
`src/`; its declaration documents "@throws - InvalidOperationError if a
source file already exists at the provided file name" and
`SourceFileCreateOptions.overwrite` documents "Whether a source file
should be overwritten if it exists. Defaults to false." -/
def createSourceFile (p : Project) (path : String) (text : Text)
    (opts : SourceFileCreateOptions) : Except WrapperError (Project × String) :=
  if p.fileExists path ∧ opts.overwrite.getD false = false then
    .error .invalidOperation
  else
    .ok (⟨(path, text) :: p.files.filter (fun f => ¬ f.1 = path)⟩, path)

/-! ## TextRange handles (claim C10) -/

/-- A source file with a tree-generation counter: every manipulation
produces a new generation (spec §3, §4.3 step 4). -/
structure SourceFileState where
  text : Text
  generation : Nat
  cache : Cache
  deriving DecidableEq, Repr

/-- A `TextRange` handle (ts-morph.d.ts:4909-4942): positions plus the
generation of the source file it was generated from. -/
structure TextRangeHandle where
  generation : Nat
  pos : Nat
  stop : Nat
  deriving DecidableEq, Repr

/-- `TextRange.wasForgotten` (ts-morph.d.ts:4936-4941): "This will be
true after any manipulations have occured to the source file this text
range was generated from" — the handle's generation no longer matches
the file's. -/
def TextRangeHandle.wasForgotten (tr : TextRangeHandle)
    (sf : SourceFileState) : Bool :=
  decide (tr.generation ≠ sf.generation)

/-- Modelled from the spec: any manipulation of a source file splices
the edit, starts a new tree generation for the remap pass of §4.3, and
remaps the wrapper cache. -/
def manipulateSourceFile (sf : SourceFileState) (ed : TextEdit) :
    SourceFileState :=
  ⟨spliceText sf.text ed, sf.generation + 1, remapCache ed sf.cache⟩

/-- `TextRange.getPos` (ts-morph.d.ts:4920-4923) behind the
`_throwIfForgotten` guard (ts-morph.d.ts:4914). -/
def TextRangeHandle.getPos (tr : TextRangeHandle) (sf : SourceFileState) :
    Except WrapperError Nat :=
  if tr.wasForgotten sf then .error .forgottenHandle else .ok tr.pos

/-- `TextRange.getText` (ts-morph.d.ts:4932-4935) behind the
`_throwIfForgotten` guard (ts-morph.d.ts:4914). -/
def TextRangeHandle.getText (tr : TextRangeHandle) (sf : SourceFileState) :
    Except WrapperError Text :=
  if tr.wasForgotten sf then .error .forgottenHandle
  else .ok ((sf.text.drop tr.pos).take (tr.stop - tr.pos))

/-! ## Helper lemmas -/

theorem mergeStructure_toUpdate (sh : NodeShape) :
    mergeStructure sh (toStructure sh).toUpdate = sh := by
  cases sh <;> rfl

theorem applyToDefault_toStructure (sh : NodeShape) :
    applyToDefault (toStructure sh) = sh := by
  cases sh <;> rfl

theorem kindOf_toStructure (sh : NodeShape) :
    (toStructure sh).toUpdate.kind = sh.kindOf := by
  cases sh <;> rfl

theorem spliceText_self (pre mid post : Text) :
    spliceText (pre ++ mid ++ post) ⟨pre.length, pre.length + mid.length, mid⟩
      = pre ++ mid ++ post := by
  have h1 : (pre ++ mid ++ post).take pre.length = pre := by
    rw [List.append_assoc, List.take_left]
  have h2 : (pre ++ mid ++ post).drop (pre.length + mid.length) = post := by
    rw [show pre.length + mid.length = (pre ++ mid).length by
          simp [List.length_append],
        List.drop_left]
  simp only [spliceText, h1, h2]

theorem remapNode_wf (ed : TextEdit) (n m : ConcreteNode)
    (hn : n.WF) (h : remapNode ed n = some m) : m.WF := by
  unfold remapNode at h
  split_ifs at h with h1 h2
  · exact (Option.some.inj h) ▸ hn
  · rw [← Option.some.inj h]
    show n.start - (ed.e - ed.s) + ed.repl.length
        < n.stop - (ed.e - ed.s) + ed.repl.length
    omega

theorem remapNode_inj (ed : TextEdit) (n1 n2 m : ConcreteNode)
    (h1 : n1.WF) (h2 : n2.WF)
    (e1 : remapNode ed n1 = some m) (e2 : remapNode ed n2 = some m) :
    n1 = n2 := by
  obtain ⟨k1, a1, b1⟩ := n1
  obtain ⟨k2, a2, b2⟩ := n2
  obtain ⟨km, am, bm⟩ := m
  simp only [ConcreteNode.WF] at h1 h2
  simp only [remapNode] at e1 e2
  simp only [ConcreteNode.mk.injEq]
  split_ifs at e1 e2 <;>
    simp only [Option.some.injEq, ConcreteNode.mk.injEq, reduceCtorEq]
      at e1 e2 <;>
    obtain ⟨ek1, ea1, eb1⟩ := e1 <;>
    obtain ⟨ek2, ea2, eb2⟩ := e2 <;>
    exact ⟨ek1.trans ek2.symm, by omega, by omega⟩

theorem nodup_filterMap_remapNode (ed : TextEdit) (l : List ConcreteNode)
    (hwf : ∀ n ∈ l, n.WF) (hnd : l.Nodup) :
    (l.filterMap (remapNode ed)).Nodup := by
  induction l with
  | nil => simp
  | cons a t ih =>
      rw [List.filterMap_cons]
      have hnd' := List.nodup_cons.mp hnd
      have ihr := ih (fun n hn => hwf n (List.mem_cons_of_mem a hn)) hnd'.2
      cases h : remapNode ed a with
      | none => exact ihr
      | some m =>
          refine List.nodup_cons.mpr ⟨fun hm => ?_, ihr⟩
          obtain ⟨n', hn't, hn'm⟩ := List.mem_filterMap.mp hm
          have heq : a = n' :=
            remapNode_inj ed a n' m (hwf a (List.mem_cons_self a t))
              (hwf n' (List.mem_cons_of_mem a hn't)) h hn'm
          exact hnd'.1 (heq ▸ hn't)

theorem remapCache_map_fst (ed : TextEdit) (c : Cache) :
    (remapCache ed c).entries.map Prod.fst
      = (c.entries.map Prod.fst).filterMap (remapNode ed) := by
  show (c.entries.filterMap _).map Prod.fst = _
  rw [List.map_filterMap, List.filterMap_map]
  congr 1
  funext x
  simp only [Function.comp_apply]
  cases remapNode ed x.1 <;> rfl

theorem remapCache_wf (ed : TextEdit) (c : Cache) (h : c.WF) :
    (remapCache ed c).WF := by
  obtain ⟨hnd, hwf⟩ := h
  constructor
  · rw [remapCache_map_fst]
    refine nodup_filterMap_remapNode ed _ (fun n hn => ?_) hnd
    obtain ⟨p, hp, rfl⟩ := List.mem_map.mp hn
    exact hwf p hp
  · intro p hp
    obtain ⟨q, hq, hqp⟩ := List.mem_filterMap.mp hp
    obtain ⟨mm, hmm, hfp⟩ := Option.map_eq_some'.mp hqp
    rw [← hfp]
    exact remapNode_wf ed q.1 mm (hwf q hq) hmm

theorem remapNode_repl_irrel (s e : Nat) (t1 t2 : Text) (n : ConcreteNode) :
    (remapNode ⟨s, e, t1⟩ n).isSome = (remapNode ⟨s, e, t2⟩ n).isSome := by
  unfold remapNode
  split_ifs <;> rfl

theorem remapCache_wrapperIds_congr (s e : Nat) (t1 t2 : Text) (c : Cache) :
    (remapCache ⟨s, e, t1⟩ c).wrapperIds
      = (remapCache ⟨s, e, t2⟩ c).wrapperIds := by
  show ((c.entries.filterMap _).map Prod.snd : List Nat)
      = (c.entries.filterMap _).map Prod.snd
  induction c.entries with
  | nil => rfl
  | cons p t ih =>
      rw [List.filterMap_cons, List.filterMap_cons]
      have hs := remapNode_repl_irrel s e t1 t2 p.1
      cases h1 : remapNode ⟨s, e, t1⟩ p.1 <;>
        cases h2 : remapNode ⟨s, e, t2⟩ p.1 <;>
        rw [h1, h2] at hs <;> simp_all

theorem getOrCreate_lookup_none (c : Cache) (n : ConcreteNode)
    (h : c.lookup n = none) :
    ∀ p ∈ c.entries, p.1 ≠ n := by
  intro p hp
  simp only [Cache.lookup, Option.map_eq_none', List.find?_eq_none] at h
  simpa using h p hp

/-! ## Claim theorems -/

/-- C1: once a wrapper's liveness flag is cleared there is no transition
out of the forgotten state, and every operation subsequently invoked on
a forgotten wrapper fails with the forgotten-handle error instead of
running its body on stale data. -/
theorem claim_C1_forgotten_is_terminal :
    (∀ ev : WrapperEvent, stepWrapper .forgotten ev = .forgotten) ∧
    ∀ (α : Type) (f : WrapperNode → α) (w : WrapperNode),
      w.live = false → invokeOp f w = .error .forgottenHandle := by
  refine ⟨fun ev => by cases ev <;> rfl, fun α f w h => ?_⟩
  simp [invokeOp, h]

/-- C1 witness: the forgotten state absorbs the explicit-forget event,
and a concrete operation on a concrete forgotten wrapper errors. -/
theorem claim_C1_witness :
    stepWrapper .forgotten .explicitForget = .forgotten ∧
    invokeOp (fun w => w.id) ⟨7, ⟨0, 0, 1⟩, false⟩
      = .error .forgottenHandle :=
  ⟨claim_C1_forgotten_is_terminal.1 .explicitForget,
   claim_C1_forgotten_is_terminal.2 Nat (fun w => w.id) ⟨7, ⟨0, 0, 1⟩, false⟩ rfl⟩

/-- C4: reading a node's structure and applying it with `set` to an
empty/default node of the same kind renders source text equal to the
original node's (settings-normalized) text, for every supported kind
and every settings configuration. -/
theorem claim_C4_structure_roundtrip (settings : ManipulationSettings)
    (sh : NodeShape) :
    renderShape settings (applyToDefault (toStructure sh))
      = renderShape settings sh := by
  rw [applyToDefault_toStructure]

/-- C6: every `OrThrow` accessor is the throw-on-none view of its
nullable sibling: it raises NotFound exactly when the sibling returns
none, and both return the same wrapper when the element exists — shown
for the generic pairing combinator over any lookup, and for the
`getClass` / `getClassOrThrow` pair. -/
theorem claim_C6_orThrow_pairing :
    (∀ (α β : Type) (lookup : β → Option α) (q : β),
      (orThrow (lookup q) = .error .notFound ↔ lookup q = none) ∧
      ∀ v, lookup q = some v → orThrow (lookup q) = .ok v) ∧
    ∀ (decls : List Decl) (name : Text),
      (getClassOrThrow decls name = .error .notFound ↔
        getClass decls name = none) ∧
      ∀ d, getClass decls name = some d →
        getClassOrThrow decls name = .ok d := by
  have h : ∀ (α : Type) (r : Option α),
      (orThrow r = .error .notFound ↔ r = none) ∧
      ∀ v, r = some v → orThrow r = .ok v := by
    intro α r
    cases r <;> simp [orThrow]
  exact ⟨fun α β lookup q => h α (lookup q),
         fun decls name => h Decl (getClass decls name)⟩

/-- C6 witness: on a document with one class `A`, the throwing variant
raises NotFound for the absent name `B` while the paired query returns
none, and both variants return the class for the present name `A`. -/
theorem claim_C6_witness :
    getClassOrThrow [⟨.classDecl, "A".toList⟩] "B".toList
      = .error .notFound ∧
    getClassOrThrow [⟨.classDecl, "A".toList⟩] "A".toList
      = .ok ⟨.classDecl, "A".toList⟩ :=
  ⟨(claim_C6_orThrow_pairing.2 [⟨.classDecl, "A".toList⟩] "B".toList).1.mpr
      (by decide),
   (claim_C6_orThrow_pairing.2 [⟨.classDecl, "A".toList⟩] "A".toList).2
      ⟨.classDecl, "A".toList⟩ (by decide)⟩

/-- C7: applying via `set` the structure read from the wrapper itself is
a no-op — the issued TextEdit's replacement text equals the text already
occupying the replaced range, and splicing it reproduces the document
text unchanged. -/
theorem claim_C7_noop_set (settings : ManipulationSettings)
    (pre post : Text) (sh : NodeShape) :
    setStructureEdit settings pre.length
        (pre.length + (renderShape settings sh).length) sh
        (toStructure sh).toUpdate
      = .ok ⟨pre.length, pre.length + (renderShape settings sh).length,
             renderShape settings sh⟩ ∧
    spliceText (pre ++ renderShape settings sh ++ post)
        ⟨pre.length, pre.length + (renderShape settings sh).length,
         renderShape settings sh⟩
      = pre ++ renderShape settings sh ++ post := by
  refine ⟨?_, spliceText_self pre (renderShape settings sh) post⟩
  simp [setStructureEdit, kindOf_toStructure, mergeStructure_toUpdate]

/-- C3 counterexample: deleting the range `[5, 10)` (length delta −5)
leaves the wrapper of the node occupying `[0, 3)` — disjoint from the
edit — live with its start offset unchanged (change 0), but the claim
demands a change of exactly the length delta, which is nonzero. -/
theorem claim_C3_counterexample :
    disjointFrom ⟨0, 0, 3⟩ ⟨5, 10, []⟩ = true ∧
    remapNode ⟨5, 10, []⟩ ⟨0, 0, 3⟩ = some ⟨0, 0, 3⟩ ∧
    (⟨5, 10, []⟩ : TextEdit).delta ≠ 0 := by
  refine ⟨rfl, rfl, ?_⟩
  decide

/-- C3 (amended): an edit replacing `[s, e)` forgets exactly the
wrappers whose node interior it touches; a wrapper wholly at or after
the edit end survives with its start (and end) offset shifted by
exactly the length delta; a wrapper wholly at or before the edit start
survives with its offsets unchanged.  Scenario B holds as stated:
removing the first of two sibling statements leaves the second
statement's wrapper live with its start decreased by exactly the
removed statement's old length. -/
theorem claim_C3_remap_frame (ed : TextEdit) (n : ConcreteNode)
    (hn : n.WF) (hed : ed.s ≤ ed.e) :
    (remapNode ed n = none ↔ n.start < ed.e ∧ ed.s < n.stop) ∧
    (ed.e ≤ n.start →
      ∃ n', remapNode ed n = some n' ∧ n'.kind = n.kind ∧
        (n'.start : Int) = (n.start : Int) + ed.delta ∧
        (n'.stop : Int) = (n.stop : Int) + ed.delta) ∧
    (n.stop ≤ ed.s → remapNode ed n = some n) ∧
    remapNode ⟨0, 10, []⟩ ⟨1, 10, 20⟩ = some ⟨1, 0, 10⟩ := by
  unfold ConcreteNode.WF at hn
  refine ⟨?_, ?_, ?_, rfl⟩
  · unfold remapNode
    split_ifs with h1 h2 <;> simp <;> omega
  · intro h
    unfold remapNode
    have h1 : ¬ n.stop ≤ ed.s := by omega
    rw [if_neg h1, if_pos h]
    refine ⟨_, rfl, rfl, ?_, ?_⟩ <;> simp [TextEdit.delta] <;> omega
  · intro h
    unfold remapNode
    rw [if_pos h]

/-- C3 witness: under the edit replacing `[2, 4)` with three characters
(length delta +1), the wrapper before the edit keeps its offsets and the
wrapper whose interior the edit touches is forgotten. -/
theorem claim_C3_witness :
    remapNode ⟨2, 4, "xyz".toList⟩ ⟨0, 0, 2⟩ = some ⟨0, 0, 2⟩ ∧
    remapNode ⟨2, 4, "xyz".toList⟩ ⟨0, 3, 5⟩ = none :=
  ⟨(claim_C3_remap_frame ⟨2, 4, "xyz".toList⟩ ⟨0, 0, 2⟩ (by decide)
      (by decide)).2.2.1 (by decide),
   (claim_C3_remap_frame ⟨2, 4, "xyz".toList⟩ ⟨0, 3, 5⟩ (by decide)
      (by decide)).1.mpr (by decide)⟩

/-- C5: whenever the edit pipeline reports a validation error, the
returned document state (text, tree generation's cache) is exactly the
input state — no partial edit is committed — and the error is one of the
three validation kinds. -/
theorem claim_C5_validation_before_mutation (settings : ManipulationSettings)
    (st st' : DocState) (r : EditRequest) (err : WrapperError)
    (h : applyRequest settings st r = (st', some err)) :
    st' = st ∧
    (err = .structureMismatch ∨ err = .rangeError ∨ err = .unsupportedKind) := by
  unfold applyRequest at h
  cases hv : validateRequest st r with
  | none =>
      rw [hv] at h
      exact absurd (congrArg Prod.snd h) (by simp)
  | some e =>
      rw [hv] at h
      have hst : st' = st := (congrArg Prod.fst h).symm
      have herr : e = err := by
        have := congrArg Prod.snd h
        simpa using this
      subst herr
      refine ⟨hst, ?_⟩
      cases r with
      | replaceRange ed =>
          simp only [validateRequest] at hv
          split_ifs at hv with h1
          exact Or.inr (Or.inl (Option.some.inj hv).symm)
      | applyStructure s e' sh p =>
          simp only [validateRequest] at hv
          split_ifs at hv with h1 h2
          · exact Or.inr (Or.inl (Option.some.inj hv).symm)
          · exact Or.inl (Option.some.inj hv).symm
      | traitOp kind trait =>
          simp only [validateRequest] at hv
          split_ifs at hv with h1
          exact Or.inr (Or.inr (Option.some.inj hv).symm)

/-- C5 witness: an out-of-bounds replace request on an empty document
reports rangeError and returns the document state untouched. -/
theorem claim_C5_witness :
    (⟨[], ⟨[], 0⟩⟩ : DocState) = ⟨[], ⟨[], 0⟩⟩ ∧
    (WrapperError.rangeError = .structureMismatch ∨
      WrapperError.rangeError = .rangeError ∨
      WrapperError.rangeError = .unsupportedKind) :=
  claim_C5_validation_before_mutation
    ⟨.fourSpaces, .lineFeed, .double, true, true⟩
    ⟨[], ⟨[], 0⟩⟩ ⟨[], ⟨[], 0⟩⟩ (.replaceRange ⟨0, 5, []⟩) .rangeError
    (by decide)

/-- C9: creating a source file at an occupied path raises
InvalidOperationError and creates nothing, unless `overwrite` is set to
true (it defaults to false, so an absent option also raises); at a free
path the call returns a new source file registered at that path. -/
theorem claim_C9_createSourceFile (p : Project) (path : String) (text : Text)
    (opts : SourceFileCreateOptions) :
    (p.fileExists path = true → opts.overwrite.getD false = false →
      createSourceFile p path text opts = .error .invalidOperation) ∧
    (opts.overwrite.getD false = true →
      ∃ p', createSourceFile p path text opts = .ok (p', path) ∧
        p'.fileExists path = true) ∧
    (p.fileExists path = false →
      ∃ p', createSourceFile p path text opts = .ok (p', path) ∧
        p'.fileExists path = true) := by
  refine ⟨fun h1 h2 => ?_, fun h => ?_, fun h => ?_⟩
  · simp [createSourceFile, h1, h2]
  · refine ⟨⟨(path, text) :: p.files.filter (fun f => ¬ f.1 = path)⟩, ?_, ?_⟩
    · simp [createSourceFile, h]
    · simp [Project.fileExists]
  · refine ⟨⟨(path, text) :: p.files.filter (fun f => ¬ f.1 = path)⟩, ?_, ?_⟩
    · simp [createSourceFile, h]
    · simp [Project.fileExists]

/-- C9 witness: with `overwrite` absent, creating at the occupied path
"a" errors while creating at the free path "b" succeeds and registers
the file. -/
theorem claim_C9_witness :
    createSourceFile ⟨[("a", [])]⟩ "a" [] ⟨none⟩
      = .error .invalidOperation ∧
    ∃ p', createSourceFile ⟨[("a", [])]⟩ "b" [] ⟨none⟩ = .ok (p', "b") ∧
      p'.fileExists "b" = true :=
  ⟨(claim_C9_createSourceFile ⟨[("a", [])]⟩ "a" [] ⟨none⟩).1
      (by decide) (by decide),
   (claim_C9_createSourceFile ⟨[("a", [])]⟩ "b" [] ⟨none⟩).2.2 (by decide)⟩

/-- C10: every manipulation of a source file — whether or not its edited
region overlaps the range — forgets every TextRange obtained from an
earlier generation: `wasForgotten` becomes true and the position and
text accessors fail with the forgotten-handle error. -/
theorem claim_C10_textRange_forgotten (sf : SourceFileState) (ed : TextEdit)
    (tr : TextRangeHandle) (h : tr.generation ≤ sf.generation) :
    tr.wasForgotten (manipulateSourceFile sf ed) = true ∧
    tr.getPos (manipulateSourceFile sf ed) = .error .forgottenHandle ∧
    tr.getText (manipulateSourceFile sf ed) = .error .forgottenHandle := by
  have hw : tr.wasForgotten (manipulateSourceFile sf ed) = true := by
    simp only [TextRangeHandle.wasForgotten, manipulateSourceFile,
      decide_eq_true_eq]
    omega
  exact ⟨hw, by simp [TextRangeHandle.getPos, hw],
    by simp [TextRangeHandle.getText, hw]⟩

/-- C2: asking the cache twice for the wrapper of the same concrete node
returns the identical wrapper id, and the second ask leaves the cache
untouched; the at-most-one-live-wrapper-per-node invariant is preserved
by `getOrCreate`, by `forget`, and by the remap pass. -/
theorem claim_C2_reference_stability :
    (∀ (c : Cache) (n : ConcreteNode),
      ((c.getOrCreate n).1.getOrCreate n).2 = (c.getOrCreate n).2 ∧
      ((c.getOrCreate n).1.getOrCreate n).1 = (c.getOrCreate n).1) ∧
    (∀ (c : Cache) (n : ConcreteNode), c.WF → n.WF →
      ((c.getOrCreate n).1).WF) ∧
    (∀ (c : Cache) (wid : Nat), c.WF → (c.forget wid).WF) ∧
    (∀ (c : Cache) (ed : TextEdit), c.WF → (remapCache ed c).WF) := by
  refine ⟨fun c n => ?_, fun c n hc hn => ?_, fun c wid hc => ?_,
    fun c ed hc => remapCache_wf ed c hc⟩
  · unfold Cache.getOrCreate
    cases h : c.lookup n with
    | some wid => simp [h]
    | none =>
        have h2 : (⟨(n, c.nextId) :: c.entries, c.nextId + 1⟩ : Cache).lookup n
            = some c.nextId := by
          simp [Cache.lookup, List.find?_cons_of_pos]
        simp [h, h2]
  · unfold Cache.getOrCreate
    cases h : c.lookup n with
    | some wid => simpa using hc
    | none =>
        simp only []
        refine ⟨?_, ?_⟩
        · refine List.nodup_cons.mpr ⟨fun hmem => ?_, hc.1⟩
          obtain ⟨p, hp, hpn⟩ := List.mem_map.mp hmem
          exact getOrCreate_lookup_none c n h p hp hpn
        · intro p hp
          rcases List.mem_cons.mp hp with h' | h'
          · rw [h']; exact hn
          · exact hc.2 p h'
  · refine ⟨?_, ?_⟩
    · have hsub : List.Sublist ((c.forget wid).entries.map Prod.fst)
          (c.entries.map Prod.fst) :=
        List.Sublist.map Prod.fst (List.filter_sublist c.entries)
      exact hc.1.sublist hsub
    · intro p hp
      exact hc.2 p (List.mem_of_mem_filter hp)

/-- C2 witness: on the empty cache, asking twice for the wrapper of a
concrete node returns the same wrapper id, and the resulting cache
still holds the uniqueness invariant. -/
theorem claim_C2_witness :
    ((Cache.getOrCreate ⟨[], 0⟩ ⟨0, 0, 1⟩).1.getOrCreate ⟨0, 0, 1⟩).2
      = (Cache.getOrCreate ⟨[], 0⟩ ⟨0, 0, 1⟩).2 ∧
    ((Cache.getOrCreate ⟨[], 0⟩ ⟨0, 0, 1⟩).1).WF :=
  ⟨(claim_C2_reference_stability.1 ⟨[], 0⟩ ⟨0, 0, 1⟩).1,
   claim_C2_reference_stability.2.1 ⟨[], 0⟩ ⟨0, 0, 1⟩
     ⟨by decide, by decide⟩ (by decide)⟩

/-- C8 counterexample: the recognized manipulation settings are not
exactly four options — `ManipulationSettings` also inherits
`insertSpaceAfterOpeningAndBeforeClosingNonemptyBraces` from
`SupportedFormatCodeSettingsOnly`, making five. -/
theorem claim_C8_counterexample : manipulationSettingsOptions.length ≠ 4 := by
  decide

/-- C8 (amended): the recognized manipulation settings are exactly five
options — indentation unit, line ending, quote style, the prefix/suffix
rename preference, and the inherited brace-spacing flag — and running
the same edit request under any two settings configurations yields
identical remap decisions (the same surviving wrapper ids, hence the
same forgotten wrappers) and the identical reported error: the settings
affect only how synthesized text is rendered. -/
theorem claim_C8_settings_render_only (s1 s2 : ManipulationSettings)
    (st : DocState) (r : EditRequest) :
    manipulationSettingsOptions =
      ["indentationText", "newLineKind", "quoteKind",
       "usePrefixAndSuffixTextForRename",
       "insertSpaceAfterOpeningAndBeforeClosingNonemptyBraces"] ∧
    (applyRequest s1 st r).1.cache.wrapperIds
      = (applyRequest s2 st r).1.cache.wrapperIds ∧
    (applyRequest s1 st r).2 = (applyRequest s2 st r).2 := by
  refine ⟨rfl, ?_⟩
  cases r with
  | replaceRange ed =>
      cases hv : validateRequest st (.replaceRange ed) <;>
        simp [applyRequest, hv, commitRequest]
  | applyStructure s e sh p =>
      cases hv : validateRequest st (.applyStructure s e sh p) with
      | some err => simp [applyRequest, hv]
      | none =>
          simp only [applyRequest, hv, commitRequest]
          exact ⟨remapCache_wrapperIds_congr s e _ _ st.cache, trivial⟩
  | traitOp kind trait =>
      cases hv : validateRequest st (.traitOp kind trait) <;>
        simp [applyRequest, hv, commitRequest]

/-- C10 witness: a current-generation TextRange over `[5, 9)` is
forgotten by a manipulation whose edited region `[0, 0)` is disjoint
from it, and both accessors fail. -/
theorem claim_C10_witness :
    (⟨0, 5, 9⟩ : TextRangeHandle).wasForgotten
      (manipulateSourceFile ⟨[], 0, ⟨[], 0⟩⟩ ⟨0, 0, []⟩) = true ∧
    (⟨0, 5, 9⟩ : TextRangeHandle).getPos
      (manipulateSourceFile ⟨[], 0, ⟨[], 0⟩⟩ ⟨0, 0, []⟩)
      = .error .forgottenHandle ∧
    (⟨0, 5, 9⟩ : TextRangeHandle).getText
      (manipulateSourceFile ⟨[], 0, ⟨[], 0⟩⟩ ⟨0, 0, []⟩)
      = .error .forgottenHandle :=
  claim_C10_textRange_forgotten ⟨[], 0, ⟨[], 0⟩⟩ ⟨0, 0, []⟩ ⟨0, 5, 9⟩
    (by decide)

end TsMorph
